import Mathlib

/-!
# Verification of the CS quiz generator (app.py)

Shallow embedding of the quiz application's core logic:

* `parse_ai_response` — the AI-response normalizer (fence stripping, strict
  JSON parse with a lenient-repair fallback, shape normalization),
  from `app.py` lines 113–141;
* `extract_text_from_pdf` — PDF text extraction, lines 100–111;
* `display_interactive_quiz` — rendering and scoring, lines 200–268,
  split into `renderQuestion` / `renderAll` / `countCorrect` / `submitQuiz`;
* the quiz-history operations from lines 245–250 and 276–281.

Modelling conventions:
* Python/JSON values are modelled by the inductive `Json`; Python `None`
  is `Json.null` (it is the same value `json.loads` produces for `null`).
* JSON numbers are modelled as integers; the strict parser `json_loads`
  rejects fractional/exponent forms and `\u` escapes, restricting the
  embedding's value domain but never changing behaviour on covered inputs.
* The external `json_repair.repair_json` library has no precise contract
  (the spec leaves its failure mode open), so it is an oracle parameter
  `repair : List Char → Option Json`; `none` models it raising (which the
  outer `except` of `parse_ai_response` catches).
* Python `==` is modelled by `pyEq`, including `True == 1` / `False == 0`;
  dicts (which here always originate from JSON parsing, in insertion
  order) are compared pointwise.
-/

/-- JSON / Python values as they flow through the app: the result type of
`json.loads`, and the element type of question lists. Python `None` is
`Json.null`. Numbers are modelled as integers. -/
inductive Json where
  | null : Json
  | bool : Bool → Json
  | num : Int → Json
  | str : String → Json
  | arr : List Json → Json
  | obj : List (String × Json) → Json

mutual

/-- Python `==` on the values of this app: `None == None`, booleans equal
their numeric values (`True == 1`, `False == 0`), numbers by value, strings
by content, lists pointwise, dicts pointwise in insertion order. -/
def pyEq : Json → Json → Bool
  | .null, .null => true
  | .bool a, .bool b => a == b
  | .bool a, .num n => n == (if a then (1 : Int) else 0)
  | .num n, .bool b => n == (if b then (1 : Int) else 0)
  | .num a, .num b => a == b
  | .str a, .str b => a == b
  | .arr xs, .arr ys => pyEqList xs ys
  | .obj xs, .obj ys => pyEqKVs xs ys
  | _, _ => false

/-- Pointwise Python `==` on lists. -/
def pyEqList : List Json → List Json → Bool
  | [], [] => true
  | x :: xs, y :: ys => pyEq x y && pyEqList xs ys
  | _, _ => false

/-- Pointwise Python `==` on key/value lists. -/
def pyEqKVs : List (String × Json) → List (String × Json) → Bool
  | [], [] => true
  | (k, v) :: xs, (k2, v2) :: ys => k == k2 && pyEq v v2 && pyEqKVs xs ys
  | _, _ => false

end

/-- `pyEq` against a string literal holds exactly for that string. -/
theorem pyEq_str_right {v : Json} {s : String} (h : pyEq v (.str s) = true) :
    v = .str s := by
  cases v <;> simp [pyEq] at h
  simp [h]

/-- `pyEq Json.null v` holds exactly for `v = Json.null`. -/
theorem pyEq_null_left (v : Json) : pyEq .null v = true ↔ v = .null := by
  cases v <;> simp [pyEq]

/-- First index at which `pat` occurs as a contiguous sublist of `l`
(`none` when it does not occur): the model of Python's `str.find` (with
`-1` rendered as `none`) and of the `in` containment test. -/
def findSub : List Char → List Char → Option Nat
  | [], pat => if pat.isPrefixOf ([] : List Char) then some 0 else none
  | c :: t, pat =>
    if pat.isPrefixOf (c :: t) then some 0
    else (findSub t pat).map (· + 1)

/-- Python `text.find(pat, start)`: search from index `start`, absolute
result index. -/
def pyFind (l pat : List Char) (start : Nat) : Option Nat :=
  (findSub (l.drop start) pat).map (· + start)

/-- Whitespace characters removed by Python's `str.strip()` (the ASCII
ones that can occur here). -/
def isPySpace (c : Char) : Bool :=
  c = ' ' || c = '\t' || c = '\n' || c = '\r' || c = Char.ofNat 11 || c = Char.ofNat 12

/-- Python `str.strip()` on a character list: drop leading and trailing
whitespace. -/
def pyStrip (l : List Char) : List Char :=
  (((l.dropWhile isPySpace).reverse.dropWhile isPySpace)).reverse

/-- JSON whitespace accepted between tokens by `json.loads`. -/
def isJsonWs (c : Char) : Bool :=
  c = ' ' || c = '\t' || c = '\n' || c = '\r'

/-- Skip JSON inter-token whitespace. -/
def skipWs (l : List Char) : List Char := l.dropWhile isJsonWs

/-- Decode a JSON string escape character (after the backslash). `\u` is
not supported by this model. -/
def escChar : Char → Option Char
  | '"' => some '"'
  | '\\' => some '\\'
  | '/' => some '/'
  | 'b' => some (Char.ofNat 8)
  | 'f' => some (Char.ofNat 12)
  | 'n' => some '\n'
  | 'r' => some '\r'
  | 't' => some '\t'
  | _ => none

/-- Parse the body of a JSON string (after the opening quote), returning
the decoded characters and the remainder after the closing quote. -/
def strBody : List Char → Option (List Char × List Char)
  | [] => none
  | '"' :: r => some ([], r)
  | '\\' :: r =>
    match r with
    | [] => none
    | e :: r2 =>
      match escChar e, strBody r2 with
      | some ce, some p => some (ce :: p.1, p.2)
      | _, _ => none
  | c :: r =>
    if c.toNat < 32 then none
    else
      match strBody r with
      | some p => some (c :: p.1, p.2)
      | none => none

/-- Numeric value of a digit list. -/
def natFromDigits (ds : List Char) : Nat :=
  ds.foldl (fun n c => n * 10 + (c.toNat - 48)) 0

/-- Parse a strict JSON integer (sign + digits, no leading zeros); the
model rejects fractional and exponent forms. -/
def parseNum (l : List Char) : Option (Json × List Char) :=
  let neg : Bool := match l with | '-' :: _ => true | _ => false
  let l1 : List Char := match l with | '-' :: r => r | _ => l
  let ds := l1.takeWhile Char.isDigit
  let rest := l1.dropWhile Char.isDigit
  match ds with
  | [] => none
  | '0' :: _ :: _ => none
  | _ =>
    match rest with
    | '.' :: _ => none
    | 'e' :: _ => none
    | 'E' :: _ => none
    | _ =>
      some (.num (if neg then -(natFromDigits ds : Int) else (natFromDigits ds : Int)), rest)

/-- Insert a key into a Python dict modelled as a key/value list: replace
the value in place if the key exists, else append (the semantics
`json.loads` uses for duplicate object keys: last value wins, first
position kept). -/
def insertKV (kvs : List (String × Json)) (k : String) (v : Json) :
    List (String × Json) :=
  if kvs.any (fun kv => kv.1 == k) then
    kvs.map (fun kv => if kv.1 == k then (k, v) else kv)
  else kvs ++ [(k, v)]

mutual

/-- Fuel-bounded strict JSON value parser modelling `json.loads`:
whitespace, `null`/`true`/`false`, strings, integers, arrays, objects.
Returns the value and the unconsumed remainder. -/
def parseVal : Nat → List Char → Option (Json × List Char)
  | 0, _ => none
  | fuel + 1, l =>
    match skipWs l with
    | 'n' :: 'u' :: 'l' :: 'l' :: r => some (.null, r)
    | 't' :: 'r' :: 'u' :: 'e' :: r => some (.bool true, r)
    | 'f' :: 'a' :: 'l' :: 's' :: 'e' :: r => some (.bool false, r)
    | '"' :: r =>
      match strBody r with
      | some p => some (.str (String.mk p.1), p.2)
      | none => none
    | '[' :: r =>
      (match skipWs r with
      | ']' :: r2 => some (.arr [], r2)
      | _ =>
        match parseVal fuel r with
        | some (v, r2) =>
          match parseArrRest fuel r2 with
          | some (vs, r3) => some (.arr (v :: vs), r3)
          | none => none
        | none => none)
    | '{' :: r =>
      (match skipWs r with
      | '}' :: r2 => some (.obj [], r2)
      | _ =>
        match parsePair fuel r with
        | some (k, v, r2) =>
          match parseObjRest fuel r2 with
          | some (kvs, r3) =>
            some (.obj (kvs.foldl (fun acc p => insertKV acc p.1 p.2) (insertKV [] k v)), r3)
          | none => none
        | none => none)
    | l1 => parseNum l1

/-- Remaining elements of a JSON array after the first: `, value`* then `]`. -/
def parseArrRest : Nat → List Char → Option (List Json × List Char)
  | 0, _ => none
  | fuel + 1, l =>
    match skipWs l with
    | ']' :: r => some ([], r)
    | ',' :: r =>
      match parseVal fuel r with
      | some (v, r2) =>
        match parseArrRest fuel r2 with
        | some (vs, r3) => some (v :: vs, r3)
        | none => none
      | none => none
    | _ => none

/-- One `"key" : value` member of a JSON object. -/
def parsePair : Nat → List Char → Option (String × Json × List Char)
  | 0, _ => none
  | fuel + 1, l =>
    match skipWs l with
    | '"' :: r =>
      match strBody r with
      | some p =>
        (match skipWs p.2 with
        | ':' :: r2 =>
          match parseVal fuel r2 with
          | some (v, r3) => some (String.mk p.1, v, r3)
          | none => none
        | _ => none)
      | none => none
    | _ => none

/-- Remaining members of a JSON object after the first: `, pair`* then `}`. -/
def parseObjRest : Nat → List Char → Option (List (String × Json) × List Char)
  | 0, _ => none
  | fuel + 1, l =>
    match skipWs l with
    | '}' :: r => some ([], r)
    | ',' :: r =>
      match parsePair fuel r with
      | some (k, v, r2) =>
        match parseObjRest fuel r2 with
        | some (kvs, r3) => some ((k, v) :: kvs, r3)
        | none => none
      | none => none
    | _ => none

end

/-- Model of Python's `json.loads`: parse one value and require only
whitespace to remain; `none` models `json.JSONDecodeError`. -/
def json_loads (l : List Char) : Option Json :=
  match parseVal (l.length + 1) l with
  | some (v, rest) => if (skipWs rest).isEmpty then some v else none
  | none => none

theorem json_loads_sanity_arr :
    json_loads ("[1, 2]".data) = some (.arr [.num 1, .num 2]) := by rfl

theorem json_loads_sanity_obj :
    json_loads (" \x7b\"questions\": 5\x7d ".data) =
      some (.obj [("questions", .num 5)]) := by rfl

theorem json_loads_sanity_bad : json_loads ("not json at all".data) = none := by rfl

/-- The characters of the fence marker `"```json"` searched for at
app.py line 116. -/
def js7 : List Char := "```json".data

/-- The characters of the generic fence marker. -/
def bt3 : List Char := "```".data

/-- Fence stripping of `parse_ai_response` (app.py lines 115–127): strip
the whole response; if it contains a ```json fence take the substring
from after the marker to the next ``` (or the end when unterminated);
else if it contains a generic ``` fence do the same after it; strip the
chosen substring. -/
def candidateL (text : List Char) : List Char :=
  if (findSub text js7).isSome then
    let s := (findSub text js7).getD 0 + 7
    let e := (pyFind text bt3 s).getD text.length
    pyStrip ((text.drop s).take (e - s))
  else if (findSub text bt3).isSome then
    let s := (findSub text bt3).getD 0 + 3
    let e := (pyFind text bt3 s).getD text.length
    pyStrip ((text.drop s).take (e - s))
  else pyStrip text

/-- The parsed value of app.py lines 129–132: strict `json.loads` on the
fence-stripped candidate, falling back to `repair_json(..., return_objects=True)`
on `JSONDecodeError`. The repair library is external and unspecified, so it
is an oracle; `none` models it raising (caught by the outer `except`). -/
def parsedValL (repair : List Char → Option Json) (text : List Char) : Option Json :=
  match json_loads (candidateL text) with
  | some v => some v
  | none => repair (candidateL text)

/-- Does a key/value list contain the key `"questions"`? Models the
Python membership test `"questions" in parsed`. -/
def hasKeyQ (kvs : List (String × Json)) : Bool :=
  kvs.any (fun kv => kv.1 == "questions")

/-- Shape normalization of app.py lines 134–139: wrap a list as
`{questions: list}`; return a dict as-is when it has a `questions` key,
else wrap its values (empty when the dict is empty); anything else
yields `{questions: []}`. -/
def normalizeShape : Json → Json
  | .arr xs => .obj [("questions", .arr xs)]
  | .obj kvs =>
    if hasKeyQ kvs then .obj kvs
    else if kvs.isEmpty then .obj [("questions", .arr [])]
    else .obj [("questions", .arr (kvs.map (fun kv => kv.2)))]
  | _ => .obj [("questions", .arr [])]

/-- `parse_ai_response` on a character list: fence-strip, parse with
fallback, normalize; a repair failure (the only raising step) is caught
and yields `{questions: []}` (app.py lines 113–141). -/
def parseCore (repair : List Char → Option Json) (text : List Char) : Json :=
  match parsedValL repair text with
  | some v => normalizeShape v
  | none => .obj [("questions", .arr [])]

/-- The response normalizer `parse_ai_response` of app.py lines 113–141,
parameterized by the external repair library. -/
def parse_ai_response (repair : List Char → Option Json) (s : String) : Json :=
  parseCore repair s.data

/-- A payload wrapped in a ```json-tagged markdown fence. -/
def wrapJson (p : String) : String := "```json\n" ++ p ++ "\n```"

/-- A payload wrapped in a generic markdown fence. -/
def wrapGen (p : String) : String := "```\n" ++ p ++ "\n```"

/-- Python `s[:n]` character truncation. -/
def pyTruncate (s : String) (n : Nat) : String := String.mk (s.data.take n)

/-- `extract_text_from_pdf` of app.py lines 100–111. The document handle
is modelled by what the pdfplumber collaborator yields: `none` when
opening/extraction raises (the `except` branch returns `""`), otherwise
the list of per-page `extract_text()` results (`none` for a page with no
text, which contributes nothing). Page texts are concatenated each
followed by a newline and the result truncated to 8000 characters. -/
def extract_text_from_pdf (pdf : Option (List (Option String))) : String :=
  match pdf with
  | none => ""
  | some pages =>
    pyTruncate
      (pages.foldl
        (fun acc p => match p with | some t => acc ++ t ++ "\n" | none => acc) "")
      8000

/-- A quiz question as rendered and scored: the key/value list of its
JSON object (`display_interactive_quiz` reads it only through `.get`). -/
abbrev Question := List (String × Json)

/-- Python `q.get(k, dflt)` on a question dict. -/
def dictGet (q : Question) (k : String) (dflt : Json) : Json :=
  match q.find? (fun kv => kv.1 == k) with
  | some kv => kv.2
  | none => dflt

/-- The condition of app.py line 221: `q.get("type") == "MCQ"`. -/
def isMCQ (q : Question) : Bool := pyEq (dictGet q "type" .null) (.str "MCQ")

/-- The condition of app.py line 228: `q.get("type") == "True/False"`. -/
def isTF (q : Question) : Bool := pyEq (dictGet q "type" .null) (.str "True/False")

/-- The `options` list of a question (`q.get("options", [])`, line 219).
Python `len()` raises on non-sized values; the model covers list-valued
options (non-lists are treated as empty). -/
def qOptions (q : Question) : List Json :=
  match dictGet q "options" (.arr []) with
  | .arr xs => xs
  | _ => []

/-- Line 229: the current True/False value — the stored answer when it is
`"True"` or `"False"` (by Python `in`, i.e. `==`), else `"True"`. -/
def tfCurrent (prev : Json) : Json :=
  if pyEq prev (.str "True") || pyEq prev (.str "False") then prev else .str "True"

/-- Line 230: the radio pre-selection index for a True/False question —
0 (\"True\") unless the current value is `"False"`. -/
def tfDefaultIdx (prev : Json) : Nat :=
  if pyEq (tfCurrent prev) (.str "True") then 0 else 1

/-- Lines 222–224: the MCQ radio pre-selection index — the first index of
the stored answer in `options` (by Python `==`) when present, else 0. -/
def mcqDefaultIdx (options : List Json) (prev : Json) : Nat :=
  match options.findIdx? (fun o => pyEq prev o) with
  | some i => i
  | none => 0

/-- Whether the loop body of lines 221–231 renders an answer widget for a
question: an MCQ with exactly 4 options, or any True/False question (the
True/False branch never inspects `options`). -/
def hasWidget (q : Question) : Bool :=
  (isMCQ q && (qOptions q).length == 4) || isTF q

/-- The option list an answer widget presents: the question's own options
for a 4-option MCQ, the fixed `["True", "False"]` for a True/False
question, nothing otherwise. -/
def widgetOptions (q : Question) : List Json :=
  if isMCQ q && (qOptions q).length == 4 then qOptions q
  else if isTF q then [.str "True", .str "False"] else []

/-- One iteration of the rendering loop (app.py lines 214–232) for a
question with stored answer `prev`: returns the new stored answer.
`pick` is the user's radio selection for this question (`none` when the
user has not interacted, in which case the radio yields its
pre-selection index); the widget always yields an element of its option
list, modelled by indexing modulo its length. A question with no widget
leaves the stored answer unchanged. -/
def renderQuestion (pick : Option Nat) (q : Question) (prev : Json) : Json :=
  if isMCQ q && (qOptions q).length == 4 then
    let options := qOptions q
    options.getD ((pick.getD (mcqDefaultIdx options prev)) % options.length) .null
  else if isTF q then
    [Json.str "True", Json.str "False"].getD
      ((pick.getD (tfDefaultIdx prev)) % 2) .null
  else prev

/-- The whole rendering loop: update each stored answer from its question
(`picks i` is the user's selection on question `i`, 0-based). -/
def renderAll (picks : Nat → Option Nat) : Nat → List Question → List Json → List Json
  | _, [], rest => rest
  | _, _, [] => []
  | i, q :: qt, a :: rest => renderQuestion (picks i) q a :: renderAll picks (i + 1) qt rest

/-- Is a stored answer scored as correct for its question
(`user_ans == q.get("answer", "")`, app.py lines 239–241)? -/
def scoredCorrect (q : Question) (a : Json) : Bool :=
  pyEq a (dictGet q "answer" (.str ""))

/-- The submit-time tally of app.py lines 237–242: fold over the
questions paired with their stored answers, adding 1 whenever the stored
answer equals the canonical answer by Python `==`. -/
def countCorrect (qs : List Question) (ans : List Json) : Nat :=
  (qs.zip ans).foldl (fun acc p => if scoredCorrect p.1 p.2 then acc + 1 else acc) 0

/-- The re-render tally of app.py lines 253–258, recomputed on every
rerun of the submitted state: the same fold as at submit time. -/
def rerenderCount (qs : List Question) (ans : List Json) : Nat :=
  (qs.zip ans).foldl (fun acc p => if scoredCorrect p.1 p.2 then acc + 1 else acc) 0

/-- One attempt record appended to `st.session_state.quiz_history`
(app.py lines 245–250). -/
structure Attempt where
  qtype : String
  topic : String
  score : String
  time : String
deriving DecidableEq

/-- The frozen score string `f"{correct_count}/{len(questions)}"`
(app.py line 244). -/
def scoreStr (c n : Nat) : String := toString c ++ "/" ++ toString n

/-- The submit handler of app.py lines 234–250: set the submitted flag,
tally the correct answers, and append one attempt with the frozen score
to the history. Returns (submitted flag, new history). -/
def submitQuiz (qtype topic time : String) (qs : List Question) (ans : List Json)
    (hist : List Attempt) : Bool × List Attempt :=
  (true, hist ++ [⟨qtype, topic, scoreStr (countCorrect qs ans) qs.length, time⟩])

/-- History append: `st.session_state.quiz_history.append(...)`
(app.py line 245). -/
def histAppend (l : List Attempt) (a : Attempt) : List Attempt := l ++ [a]

/-- The sidebar listing `reversed(st.session_state.quiz_history[-5:])`
(app.py line 277), generalized over the count `n` (5 at the call site):
the last `n` attempts, most recent first. -/
def listRecent (l : List Attempt) (n : Nat) : List Attempt :=
  (l.drop (l.length - n)).reverse

/-- History clearing: `st.session_state.quiz_history = []`
(app.py line 280). -/
def histClear : List Attempt := []

/-- The backquote character, recovered numerically. -/
def bq : Char := Char.ofNat 96

theorem js7_eq : js7 = [bq, bq, bq, 'j', 's', 'o', 'n'] := by decide

theorem bt3_eq : bt3 = [bq, bq, bq] := by decide

/-- A pattern occurs at position 0 of any list it is a prefix of. -/
theorem findSub_of_isPrefixOf {pat l : List Char} (h : pat.isPrefixOf l = true) :
    findSub l pat = some 0 := by
  cases l with
  | nil => rw [findSub, if_pos h]
  | cons c t => rw [findSub, if_pos h]

/-- Unfolding `findSub` on a cons cell whose head does not start the
pattern. -/
theorem findSub_cons_of_not_pfx {pat : List Char} {c : Char} {t : List Char}
    (h : pat.isPrefixOf (c :: t) = false) :
    findSub (c :: t) pat = (findSub t pat).map (· + 1) := by
  rw [findSub, if_neg (by simp [h])]

/-- A failed search on a cons cell fails at the head and on the tail. -/
theorem findSub_cons_none {pat : List Char} {c : Char} {t : List Char}
    (h : findSub (c :: t) pat = none) :
    pat.isPrefixOf (c :: t) = false ∧ findSub t pat = none := by
  by_cases hp : pat.isPrefixOf (c :: t) = true
  · rw [findSub, if_pos hp] at h
    exact absurd h (by simp)
  · have hp' : pat.isPrefixOf (c :: t) = false := by
      exact Bool.eq_false_iff.mpr hp
    rw [findSub_cons_of_not_pfx hp'] at h
    exact ⟨hp', Option.map_eq_none'.mp h⟩

/-- If a pattern is absent from a list, any extension of the pattern is
absent too. -/
theorem findSub_none_mono {pat1 pat2 l : List Char}
    (hp : pat1.isPrefixOf pat2 = true) (h : findSub l pat1 = none) :
    findSub l pat2 = none := by
  induction l with
  | nil =>
    rw [findSub] at h ⊢
    by_cases h2 : pat2.isPrefixOf ([] : List Char) = true
    · have hpre : pat1 <+: pat2 := List.isPrefixOf_iff_prefix.mp hp
      have h2' : pat2 <+: ([] : List Char) := List.isPrefixOf_iff_prefix.mp h2
      have : pat1.isPrefixOf ([] : List Char) = true :=
        List.isPrefixOf_iff_prefix.mpr (hpre.trans h2')
      rw [if_pos this] at h
      exact absurd h (by simp)
    · rw [if_neg h2]
  | cons c t ih =>
    obtain ⟨h1, h2⟩ := findSub_cons_none h
    have hnp : pat2.isPrefixOf (c :: t) = false := by
      by_cases hq : pat2.isPrefixOf (c :: t) = true
      · have : pat1.isPrefixOf (c :: t) = true :=
          List.isPrefixOf_iff_prefix.mpr
            ((List.isPrefixOf_iff_prefix.mp hp).trans (List.isPrefixOf_iff_prefix.mp hq))
        rw [this] at h1
        exact absurd h1 (by simp)
      · exact Bool.eq_false_iff.mpr hq
    rw [findSub_cons_of_not_pfx hnp, ih h2]
    rfl

/-- The fence marker is not a prefix of `p ++ '\n' :: rest` when it is not
a prefix of `p`: any straddling occurrence would need a backquote where
the newline sits. -/
theorem not_pfx_bt (p rest : List Char) (h : bt3.isPrefixOf p = false) :
    bt3.isPrefixOf (p ++ '\n' :: rest) = false := by
  match p with
  | [] => simp [bt3_eq, List.isPrefixOf]
  | [a] => simp [bt3_eq, List.isPrefixOf]
  | [a, b] => simp [bt3_eq, List.isPrefixOf]
  | a :: b :: c :: t =>
    simp only [bt3_eq, List.isPrefixOf, List.cons_append] at h ⊢
    simpa using by simpa using h

/-- Searching for the fence marker past a marker-free block `p` and a
newline finds exactly what the search finds after them: straddling
matches are blocked by the newline. -/
theorem findSub_append_nl (p q : List Char) (h : findSub p bt3 = none) :
    findSub (p ++ '\n' :: q) bt3 = (findSub q bt3).map (· + (p.length + 1)) := by
  induction p with
  | nil =>
    rw [List.nil_append,
      findSub_cons_of_not_pfx (by simp [bt3_eq, List.isPrefixOf])]
    cases findSub q bt3 <;> simp
  | cons c t ih =>
    obtain ⟨h1, h2⟩ := findSub_cons_none h
    have hnp : bt3.isPrefixOf (c :: (t ++ '\n' :: q)) = false := by
      simpa using not_pfx_bt (c :: t) q h1
    rw [List.cons_append, findSub_cons_of_not_pfx hnp, ih h2]
    cases findSub q bt3 <;> simp
    omega

/-- The ```json marker does not occur in a marker-free block followed by a
newline and a bare closing fence. -/
theorem findSub_append_js7_none (p : List Char) (h : findSub p bt3 = none) :
    findSub (p ++ '\n' :: bt3) js7 = none := by
  induction p with
  | nil => decide
  | cons c t ih =>
    obtain ⟨h1, h2⟩ := findSub_cons_none h
    have hnp : js7.isPrefixOf (c :: (t ++ '\n' :: bt3)) = false := by
      by_cases hq : js7.isPrefixOf (c :: (t ++ '\n' :: bt3)) = true
      · have hb : bt3.isPrefixOf (c :: (t ++ '\n' :: bt3)) = true :=
          List.isPrefixOf_iff_prefix.mpr
            ((List.isPrefixOf_iff_prefix.mp (by decide :
                bt3.isPrefixOf js7 = true)).trans (List.isPrefixOf_iff_prefix.mp hq))
        have := not_pfx_bt (c :: t) bt3 h1
        simp only [List.cons_append] at this
        rw [this] at hb
        exact absurd hb (by simp)
      · exact Bool.eq_false_iff.mpr hq
    rw [List.cons_append, findSub_cons_of_not_pfx hnp, ih h2]
    rfl

/-- The ```json marker does not occur anywhere in a generic-fenced
marker-free payload. -/
theorem findSub_wrapGen_js7_none (p : List Char) (h : findSub p bt3 = none) :
    findSub (bt3 ++ '\n' :: (p ++ '\n' :: bt3)) js7 = none := by
  have h4 : findSub (p ++ '\n' :: bt3) js7 = none := findSub_append_js7_none p h
  rw [bt3_eq] at h4
  rw [bt3_eq]
  rw [List.cons_append, List.cons_append, List.cons_append, List.nil_append]
  rw [findSub_cons_of_not_pfx (by simp [js7_eq, List.isPrefixOf])]
  rw [findSub_cons_of_not_pfx (by simp [js7_eq, List.isPrefixOf])]
  rw [findSub_cons_of_not_pfx (by simp [js7_eq, List.isPrefixOf])]
  rw [findSub_cons_of_not_pfx (by simp [js7_eq, List.isPrefixOf])]
  rw [h4]
  rfl

/-- Stripping ignores a leading whitespace character. -/
theorem pyStrip_cons_ws {c : Char} (l : List Char) (h : isPySpace c = true) :
    pyStrip (c :: l) = pyStrip l := by
  simp [pyStrip, List.dropWhile_cons, h]

/-- Stripping ignores a trailing whitespace character. -/
theorem pyStrip_append_ws {c : Char} (l : List Char) (h : isPySpace c = true) :
    pyStrip (l ++ [c]) = pyStrip l := by
  unfold pyStrip
  rw [List.dropWhile_append]
  by_cases he : (l.dropWhile isPySpace).isEmpty
  · simp only [he, if_true]
    have hl : l.dropWhile isPySpace = [] := by
      simpa [List.isEmpty_iff] using he
    simp [hl, List.dropWhile_cons, h]
  · have he' : (l.dropWhile isPySpace).isEmpty = false := by simpa using he
    rw [he']
    simp [List.dropWhile_cons, h]

/-- Stripping a payload sandwiched between newlines equals stripping the
payload. -/
theorem pyStrip_nl_sandwich (p : List Char) :
    pyStrip ('\n' :: (p ++ ['\n'])) = pyStrip p := by
  rw [pyStrip_cons_ws _ (by decide), pyStrip_append_ws _ (by decide)]

/-- Taking up to the closing fence keeps the newline-sandwiched payload. -/
theorem inner_take (p q : List Char) :
    ('\n' :: (p ++ '\n' :: q)).take (p.length + 2) = '\n' :: (p ++ ['\n']) := by
  have h2 : p.length + 2 = p.length + 1 + 1 := by omega
  rw [h2, List.take_succ_cons, List.take_append_eq_append_take,
    List.take_of_length_le (by omega)]
  simp

/-- Position of the closing fence marker inside the fenced block body. -/
theorem findSub_inner (p : List Char) (h : findSub p bt3 = none) :
    findSub ('\n' :: (p ++ '\n' :: bt3)) bt3 = some (p.length + 2) := by
  rw [findSub_cons_of_not_pfx (by simp [bt3_eq, List.isPrefixOf]),
    findSub_append_nl p bt3 h, (by decide : findSub bt3 bt3 = some 0)]
  simp

/-- Fence stripping of a ```json-fenced marker-free payload yields the
stripped payload. -/
theorem candidateL_wrapJson (p : List Char) (h : findSub p bt3 = none) :
    candidateL (js7 ++ '\n' :: (p ++ '\n' :: bt3)) = pyStrip p := by
  have hfind : findSub (js7 ++ '\n' :: (p ++ '\n' :: bt3)) js7 = some 0 :=
    findSub_of_isPrefixOf (List.isPrefixOf_iff_prefix.mpr (List.prefix_append _ _))
  have hdrop : (js7 ++ '\n' :: (p ++ '\n' :: bt3)).drop 7 = '\n' :: (p ++ '\n' :: bt3) :=
    List.drop_left' (by decide)
  have hinner : findSub ('\n' :: (p ++ '\n' :: bt3)) bt3 = some (p.length + 2) :=
    findSub_inner p h
  unfold candidateL
  rw [hfind]
  simp only [Option.isSome_some, if_true, Option.getD_some, pyFind, Nat.zero_add, hdrop,
    hinner, Option.map_some']
  have harith : p.length + 2 + 7 - 7 = p.length + 2 := by omega
  rw [harith, inner_take, pyStrip_nl_sandwich]

/-- Fence stripping of a generically fenced marker-free payload yields
the stripped payload. -/
theorem candidateL_wrapGen (p : List Char) (h : findSub p bt3 = none) :
    candidateL (bt3 ++ '\n' :: (p ++ '\n' :: bt3)) = pyStrip p := by
  have hjs : findSub (bt3 ++ '\n' :: (p ++ '\n' :: bt3)) js7 = none :=
    findSub_wrapGen_js7_none p h
  have hfind : findSub (bt3 ++ '\n' :: (p ++ '\n' :: bt3)) bt3 = some 0 :=
    findSub_of_isPrefixOf (List.isPrefixOf_iff_prefix.mpr (List.prefix_append _ _))
  have hdrop : (bt3 ++ '\n' :: (p ++ '\n' :: bt3)).drop 3 = '\n' :: (p ++ '\n' :: bt3) :=
    List.drop_left' (by decide)
  have hinner : findSub ('\n' :: (p ++ '\n' :: bt3)) bt3 = some (p.length + 2) :=
    findSub_inner p h
  unfold candidateL
  rw [hjs, hfind]
  simp only [Option.isSome_none, Option.isSome_some, if_true, Bool.false_eq_true, if_false,
    Option.getD_some, pyFind, Nat.zero_add, hdrop, hinner, Option.map_some']
  have harith : p.length + 2 + 3 - 3 = p.length + 2 := by omega
  rw [harith, inner_take, pyStrip_nl_sandwich]

/-- Fence stripping of a marker-free text is just Python `strip`. -/
theorem candidateL_no_fence (p : List Char) (h : findSub p bt3 = none) :
    candidateL p = pyStrip p := by
  have hjs : findSub p js7 = none :=
    findSub_none_mono (by decide : bt3.isPrefixOf js7 = true) h
  unfold candidateL
  rw [hjs, h]
  simp

/-- The character data of a ```json-fenced payload. -/
theorem wrapJson_data (p : String) :
    (wrapJson p).data = js7 ++ '\n' :: (p.data ++ '\n' :: bt3) := by
  show ("```json\n" ++ p ++ "\n```").data = _
  rw [String.data_append, String.data_append,
    (by decide : "```json\n".data = js7 ++ ['\n']),
    (by decide : "\n```".data = '\n' :: bt3)]
  simp

/-- The character data of a generically fenced payload. -/
theorem wrapGen_data (p : String) :
    (wrapGen p).data = bt3 ++ '\n' :: (p.data ++ '\n' :: bt3) := by
  show ("```\n" ++ p ++ "\n```").data = _
  rw [String.data_append, String.data_append,
    (by decide : "```\n".data = bt3 ++ ['\n']),
    (by decide : "\n```".data = '\n' :: bt3)]
  simp

/-- Responses whose fence-stripped candidates agree normalize alike. -/
theorem parseCore_congr (repair : List Char → Option Json) {a b : List Char}
    (h : candidateL a = candidateL b) : parseCore repair a = parseCore repair b := by
  simp [parseCore, parsedValL, h]

/-- A candidate that strictly parses to an array normalizes to that array
wrapped under `questions`, with the repair fallback never consulted. -/
theorem parseCore_of_loads_arr (repair : List Char → Option Json) {t : List Char}
    {xs : List Json} (h : json_loads (candidateL t) = some (.arr xs)) :
    parseCore repair t = .obj [("questions", .arr xs)] := by
  simp [parseCore, parsedValL, h, normalizeShape]

/-- Is a value a Python dict containing the key `"questions"`? -/
def isDictWithQ : Json → Bool
  | .obj kvs => hasKeyQ kvs
  | _ => false

/-- Is a value a Python dict whose `"questions"` entry is a list? -/
def questionsIsArr : Json → Bool
  | .obj kvs =>
    (match kvs.find? (fun kv => kv.1 == "questions") with
    | some kv => (match kv.2 with | .arr _ => true | _ => false)
    | none => false)
  | _ => false

/-- C1, counterexample. The claim says the result's `questions` value is
always a sequence; on the valid-JSON input `{"questions": 5}` the parsed
dict already has a `questions` key and is returned as-is (app.py line
137), so the value under `questions` is the number 5, not a sequence. -/
theorem C1_counterexample :
    questionsIsArr
      (parse_ai_response (fun _ => none) "\x7b\"questions\": 5\x7d") = false ∧
    parse_ai_response (fun _ => none) "\x7b\"questions\": 5\x7d" =
      .obj [("questions", .num 5)] := by
  exact ⟨rfl, rfl⟩

/-- C1, amended: for every input and every behaviour of the external
repair library (including raising), `parse_ai_response` returns a dict
containing a `questions` key — it never raises — and the value under
`questions` is a sequence whenever the parsed value was not already a
dict containing `questions` (that passthrough case being the sole
exception). -/
theorem C1_amended_never_raises (repair : List Char → Option Json) (t : String) :
    isDictWithQ (parse_ai_response repair t) = true ∧
    ((parsedValL repair t.data).elim true (fun v => !isDictWithQ v) = true →
      questionsIsArr (parse_ai_response repair t) = true) := by
  unfold parse_ai_response parseCore
  cases hpv : parsedValL repair t.data with
  | none =>
    refine ⟨by simp [isDictWithQ, hasKeyQ], fun _ => by simp [questionsIsArr]⟩
  | some v =>
    cases v with
    | arr xs =>
      refine ⟨by simp [normalizeShape, isDictWithQ, hasKeyQ], fun _ => ?_⟩
      simp [normalizeShape, questionsIsArr]
    | obj kvs =>
      by_cases hk : hasKeyQ kvs = true
      · refine ⟨by simp [normalizeShape, hk, isDictWithQ], fun hcontra => ?_⟩
        simp [isDictWithQ, hk] at hcontra
      · have hk' : hasKeyQ kvs = false := Bool.eq_false_iff.mpr hk
        have hk2 : (kvs.any fun kv => kv.1 == "questions") = false := hk'
        by_cases he : kvs.isEmpty
        · refine ⟨by simp [normalizeShape, hasKeyQ, hk2, he, isDictWithQ], fun _ => ?_⟩
          simp [normalizeShape, hasKeyQ, hk2, he, questionsIsArr]
        · have he' : kvs.isEmpty = false := Bool.eq_false_iff.mpr he
          refine ⟨by simp [normalizeShape, hasKeyQ, hk2, he', isDictWithQ], fun _ => ?_⟩
          simp [normalizeShape, hasKeyQ, hk2, he', questionsIsArr]
    | null =>
      refine ⟨by simp [normalizeShape, isDictWithQ, hasKeyQ], fun _ => ?_⟩
      simp [normalizeShape, questionsIsArr]
    | bool b =>
      refine ⟨by simp [normalizeShape, isDictWithQ, hasKeyQ], fun _ => ?_⟩
      simp [normalizeShape, questionsIsArr]
    | num n =>
      refine ⟨by simp [normalizeShape, isDictWithQ, hasKeyQ], fun _ => ?_⟩
      simp [normalizeShape, questionsIsArr]
    | str s =>
      refine ⟨by simp [normalizeShape, isDictWithQ, hasKeyQ], fun _ => ?_⟩
      simp [normalizeShape, questionsIsArr]

/-- C1, witness: the amended theorem applied to the non-JSON input of the
spec's end-to-end scenario 2, with a raising repair library. -/
theorem C1_amended_witness :
    (parsedValL (fun _ => none) "not json at all".data).elim true
        (fun v => !isDictWithQ v) = true ∧
    isDictWithQ (parse_ai_response (fun _ => none) "not json at all") = true ∧
    questionsIsArr (parse_ai_response (fun _ => none) "not json at all") = true := by
  refine ⟨by rfl, (C1_amended_never_raises (fun _ => none) "not json at all").1, ?_⟩
  exact (C1_amended_never_raises (fun _ => none) "not json at all").2 (by rfl)

/-- C3: whenever the content handed to the parser (the fence-stripped
candidate) is valid JSON with a top-level array, normalization returns
exactly that array wrapped as `{questions: array}` — and for a
marker-free payload this holds identically for the bare payload, the
```json-fenced form and the generically fenced form. The repair fallback
is never consulted. -/
theorem C3_array_normalization (repair : List Char → Option Json) (t p : String)
    (xs ys : List Json)
    (ht : json_loads (candidateL t.data) = some (.arr xs))
    (hp : findSub p.data bt3 = none)
    (hp2 : json_loads (pyStrip p.data) = some (.arr ys)) :
    parse_ai_response repair t = .obj [("questions", .arr xs)] ∧
    parse_ai_response repair p = .obj [("questions", .arr ys)] ∧
    parse_ai_response repair (wrapJson p) = .obj [("questions", .arr ys)] ∧
    parse_ai_response repair (wrapGen p) = .obj [("questions", .arr ys)] := by
  have hcp : candidateL p.data = pyStrip p.data := candidateL_no_fence p.data hp
  have hcj : candidateL (wrapJson p).data = pyStrip p.data := by
    rw [wrapJson_data]
    exact candidateL_wrapJson p.data hp
  have hcg : candidateL (wrapGen p).data = pyStrip p.data := by
    rw [wrapGen_data]
    exact candidateL_wrapGen p.data hp
  refine ⟨parseCore_of_loads_arr repair ht, ?_, ?_, ?_⟩
  · exact parseCore_of_loads_arr repair (by rw [hcp]; exact hp2)
  · exact parseCore_of_loads_arr repair (by rw [hcj]; exact hp2)
  · exact parseCore_of_loads_arr repair (by rw [hcg]; exact hp2)

/-- C3, witness: a concrete ```json-fenced array response and a concrete
bare-array payload, evaluated with a raising repair library. -/
theorem C3_witness :
    json_loads (candidateL "```json\n[1]\n```".data) = some (.arr [.num 1]) ∧
    findSub "[2]".data bt3 = none ∧
    json_loads (pyStrip "[2]".data) = some (.arr [.num 2]) ∧
    parse_ai_response (fun _ => none) "```json\n[1]\n```" =
      .obj [("questions", .arr [.num 1])] ∧
    parse_ai_response (fun _ => none) (wrapJson "[2]") =
      .obj [("questions", .arr [.num 2])] := by
  refine ⟨rfl, by decide, rfl, ?_, ?_⟩
  · exact (C3_array_normalization (fun _ => none) "```json\n[1]\n```" "[2]"
      [.num 1] [.num 2] rfl (by decide) rfl).1
  · exact (C3_array_normalization (fun _ => none) "```json\n[1]\n```" "[2]"
      [.num 1] [.num 2] rfl (by decide) rfl).2.2.1

/-- C4, counterexample. The claim asserts fencing invariance for every
payload; it fails when the payload itself contains the fence marker:
for `[1]```[2]`, the ```json-fenced form parses the payload prefix `[1]`
(the payload's own ``` acts as the closing fence) while the unfenced form
parses the suffix `[2]` (the payload's ``` acts as an opening fence). -/
theorem C4_counterexample :
    parse_ai_response (fun _ => none) (wrapJson "[1]```[2]") ≠
      parse_ai_response (fun _ => none) "[1]```[2]" := by
  intro hcontra
  have h1 : parse_ai_response (fun _ => none) (wrapJson "[1]```[2]") =
      .obj [("questions", .arr [.num 1])] := rfl
  have h2 : parse_ai_response (fun _ => none) "[1]```[2]" =
      .obj [("questions", .arr [.num 2])] := rfl
  rw [h1, h2] at hcontra
  simp at hcontra

/-- C4, amended: for every payload that does not contain the fence
marker ``` anywhere, wrapping it in a ```json-tagged or generic fence
yields exactly the result of parsing it unfenced, for every behaviour of
the repair library. -/
theorem C4_amended_fence_free (repair : List Char → Option Json) (p : String)
    (h : findSub p.data bt3 = none) :
    parse_ai_response repair (wrapJson p) = parse_ai_response repair p ∧
    parse_ai_response repair (wrapGen p) = parse_ai_response repair p := by
  have hcp : candidateL p.data = pyStrip p.data := candidateL_no_fence p.data h
  constructor
  · show parseCore repair (wrapJson p).data = parseCore repair p.data
    apply parseCore_congr
    rw [wrapJson_data, candidateL_wrapJson p.data h]
    exact hcp.symm
  · show parseCore repair (wrapGen p).data = parseCore repair p.data
    apply parseCore_congr
    rw [wrapGen_data, candidateL_wrapGen p.data h]
    exact hcp.symm

/-- C4, witness: fencing invariance evaluated on the marker-free payload
`[1, 2]`. -/
theorem C4_witness :
    findSub "[1, 2]".data bt3 = none ∧
    (parse_ai_response (fun _ => none) (wrapJson "[1, 2]") =
        parse_ai_response (fun _ => none) "[1, 2]" ∧
      parse_ai_response (fun _ => none) (wrapGen "[1, 2]") =
        parse_ai_response (fun _ => none) "[1, 2]") :=
  ⟨by decide, C4_amended_fence_free (fun _ => none) "[1, 2]" (by decide)⟩

/-- C9: fence detection is containment-based and tolerates an
unterminated fence. When ```json occurs (first at `i`) with no ```
after it, the candidate substring runs from just past the marker to the
end of the text; likewise for a generic ``` fence (first at `j`) when
```json is absent and no ``` follows it. -/
theorem C9_unterminated_fence (text t2 : List Char) (i j : Nat)
    (h1 : findSub text js7 = some i) (h2 : pyFind text bt3 (i + 7) = none)
    (g1 : findSub t2 js7 = none) (g2 : findSub t2 bt3 = some j)
    (g3 : pyFind t2 bt3 (j + 3) = none) :
    candidateL text = pyStrip (text.drop (i + 7)) ∧
    candidateL t2 = pyStrip (t2.drop (j + 3)) := by
  constructor
  · unfold candidateL
    rw [h1]
    simp only [Option.isSome_some, if_true, Option.getD_some, h2, Option.getD_none]
    rw [List.take_of_length_le (by simp)]
  · unfold candidateL
    rw [g1, g2]
    simp only [Option.isSome_none, Option.isSome_some, Bool.false_eq_true, if_false,
      if_true, Option.getD_some, g3, Option.getD_none]
    rw [List.take_of_length_le (by simp)]

/-- C9, witness: an unterminated ```json fence and an unterminated
generic fence, both cut to the end of the response. -/
theorem C9_witness :
    (findSub "```json\n[1".data js7 = some 0 ∧
      pyFind "```json\n[1".data bt3 7 = none ∧
      findSub "```\n[2".data js7 = none ∧
      findSub "```\n[2".data bt3 = some 0 ∧
      pyFind "```\n[2".data bt3 3 = none) ∧
    candidateL "```json\n[1".data = pyStrip ("```json\n[1".data.drop 7) ∧
    candidateL "```\n[2".data = pyStrip ("```\n[2".data.drop 3) := by
  refine ⟨⟨by decide, by decide, by decide, by decide, by decide⟩, ?_⟩
  exact C9_unterminated_fence "```json\n[1".data "```\n[2".data 0 0
    (by decide) (by decide) (by decide) (by decide) (by decide)

/-- The strict-string-equality comparison the claim wording describes:
equal only when both values are strings with the same content. -/
def strEq : Json → Json → Bool
  | .str a, .str b => a == b
  | _, _ => false

/-- C2, counterexample. The claim covers every wrong-cardinality question,
but the True/False branch (app.py line 228) never inspects `options`: a
True/False question with 3 options still gets a widget, its stored answer
is set to "True", and it is scored correct; moreover an MCQ with 0
options and a `null` answer field is scored correct while unanswered,
because Python `None == None` holds at line 241. -/
theorem C2_counterexample :
    hasWidget [("type", Json.str "True/False"),
      ("options", Json.arr [Json.str "True", Json.str "False", Json.str "Maybe"]),
      ("answer", Json.str "True")] = true ∧
    renderQuestion none [("type", Json.str "True/False"),
      ("options", Json.arr [Json.str "True", Json.str "False", Json.str "Maybe"]),
      ("answer", Json.str "True")] .null = Json.str "True" ∧
    scoredCorrect [("type", Json.str "True/False"),
      ("options", Json.arr [Json.str "True", Json.str "False", Json.str "Maybe"]),
      ("answer", Json.str "True")] (Json.str "True") = true ∧
    hasWidget [("type", Json.str "MCQ"), ("options", Json.arr []),
      ("answer", Json.null)] = false ∧
    scoredCorrect [("type", Json.str "MCQ"), ("options", Json.arr []),
      ("answer", Json.null)] Json.null = true :=
  ⟨rfl, rfl, rfl, rfl, rfl⟩

/-- C2, amended: an MCQ whose options list does not have exactly 4
entries gets no answer widget and its stored answer stays unset through
rendering; at scoring it is counted correct exactly when its declared
answer value is `null` (the unset answer is Python `None`), so it is
never counted correct when the answer field is a string or absent.
True/False questions, by contrast, always get a widget regardless of
their options list. -/
theorem C2_amended_mcq_mismatch (pick : Option Nat) (q : Question) (opts : List Json)
    (h1 : isMCQ q = true)
    (h2 : dictGet q "options" (.arr []) = .arr opts) (h3 : opts.length ≠ 4)
    (q2 : Question) (h4 : isTF q2 = true) :
    hasWidget q = false ∧
    renderQuestion pick q .null = .null ∧
    (scoredCorrect q .null = true ↔ dictGet q "answer" (.str "") = .null) ∧
    hasWidget q2 = true := by
  have hopts : qOptions q = opts := by simp [qOptions, h2]
  have hlen : ((qOptions q).length == 4) = false := by
    rw [hopts]
    simpa using h3
  have htype : dictGet q "type" .null = .str "MCQ" := pyEq_str_right h1
  have hTF : isTF q = false := by
    unfold isTF
    rw [htype]
    decide
  refine ⟨?_, ?_, ?_, ?_⟩
  · simp [hasWidget, hlen, hTF]
  · simp [renderQuestion, hlen, hTF]
  · simp [scoredCorrect, pyEq_null_left]
  · simp [hasWidget, h4]

/-- C2, witness: the amended theorem on a 1-option MCQ and a plain
True/False question. -/
theorem C2_witness :
    (isMCQ [("type", Json.str "MCQ"), ("options", Json.arr [Json.str "A"]),
        ("answer", Json.str "A")] = true ∧
      ([Json.str "A"] : List Json).length ≠ 4 ∧
      isTF [("type", Json.str "True/False")] = true) ∧
    (hasWidget [("type", Json.str "MCQ"), ("options", Json.arr [Json.str "A"]),
        ("answer", Json.str "A")] = false ∧
      renderQuestion none [("type", Json.str "MCQ"),
        ("options", Json.arr [Json.str "A"]), ("answer", Json.str "A")] .null = .null ∧
      (scoredCorrect [("type", Json.str "MCQ"), ("options", Json.arr [Json.str "A"]),
          ("answer", Json.str "A")] .null = true ↔
        dictGet [("type", Json.str "MCQ"), ("options", Json.arr [Json.str "A"]),
          ("answer", Json.str "A")] "answer" (.str "") = .null) ∧
      hasWidget [("type", Json.str "True/False")] = true) :=
  ⟨⟨by decide, by decide, by decide⟩,
    C2_amended_mcq_mismatch none
      [("type", Json.str "MCQ"), ("options", Json.arr [Json.str "A"]),
        ("answer", Json.str "A")]
      [Json.str "A"] (by decide) rfl (by decide)
      [("type", Json.str "True/False")] (by decide)⟩

/-- Folding the submit tally from a starting accumulator counts the
matching pairs on top of it. -/
theorem foldl_tally (l : List (Question × Json)) (acc : Nat) :
    l.foldl (fun a p => if scoredCorrect p.1 p.2 then a + 1 else a) acc =
      acc + l.countP (fun p => scoredCorrect p.1 p.2) := by
  induction l generalizing acc with
  | nil => simp
  | cons hd tl ih =>
    rw [List.foldl_cons, List.countP_cons, ih]
    by_cases h : scoredCorrect hd.1 hd.2 = true
    · simp [h]
      omega
    · have h' := Bool.eq_false_iff.mpr h
      simp [h']

/-- The submit-time tally counts exactly the question/answer pairs that
compare equal. -/
theorem countCorrect_eq_countP (qs : List Question) (ans : List Json) :
    countCorrect qs ans = (qs.zip ans).countP (fun p => scoredCorrect p.1 p.2) := by
  rw [countCorrect, foldl_tally]
  simp

/-- C5, amended: pressing submit sets the state to Submitted, appends
exactly one attempt to the history with the frozen fraction
`correct/total`, and the tally counts exactly the questions whose stored
answer equals the canonical answer under Python `==` — which coincides
with exact string equality whenever both values are strings. -/
theorem C5_amended_submit (qtype topic time : String) (qs : List Question)
    (ans : List Json) (hist : List Attempt) :
    (submitQuiz qtype topic time qs ans hist).1 = true ∧
    (submitQuiz qtype topic time qs ans hist).2 =
      hist ++ [⟨qtype, topic, scoreStr (countCorrect qs ans) qs.length, time⟩] ∧
    countCorrect qs ans = (qs.zip ans).countP (fun p => scoredCorrect p.1 p.2) ∧
    (∀ a b : String, pyEq (.str a) (.str b) = (a == b)) :=
  ⟨rfl, rfl, countCorrect_eq_countP qs ans, fun _ _ => rfl⟩

/-- C5, counterexample. The claim says submit counts exactly the
questions whose stored answer equals the canonical answer by exact
string equality; on a quiz whose single question has answer `null` and
whose stored answer is unset (`None`), the code freezes the score `1/1`
(Python `None == None`), while the exact-string-equality count is 0. -/
theorem C5_counterexample :
    (submitQuiz "Auto" "topic" "00:00"
        [[("type", Json.str "MCQ"), ("options", Json.arr []), ("answer", Json.null)]]
        [Json.null] []).2 =
      [⟨"Auto", "topic", "1/1", "00:00"⟩] ∧
    ([[("type", Json.str "MCQ"), ("options", Json.arr []),
        ("answer", Json.null)]].zip [Json.null]).countP
      (fun p => strEq p.2 (dictGet p.1 "answer" (.str ""))) = 0 :=
  ⟨rfl, rfl⟩

/-- C6: scoring is idempotent — for a fixed question list and answer
state, the tally frozen at submit time (app.py lines 237–242) and the
tally recomputed at any later re-render of the submitted state (lines
253–258) are the same, so the history entry and the re-displayed score
show the same fraction. -/
theorem C6_scoring_idempotent (qtype topic time : String) (qs : List Question)
    (ans : List Json) (hist : List Attempt) :
    countCorrect qs ans = rerenderCount qs ans ∧
    scoreStr (countCorrect qs ans) qs.length =
      scoreStr (rerenderCount qs ans) qs.length ∧
    (submitQuiz qtype topic time qs ans hist).2 =
      hist ++ [⟨qtype, topic, scoreStr (rerenderCount qs ans) qs.length, time⟩] :=
  ⟨rfl, rfl, rfl⟩

/-- The spec's formulation of page concatenation (§4.1), for comparison
with the source's fold: per-page texts each followed by a newline, pages
yielding no text contributing nothing. -/
def concatPagesSpec : List (Option String) → String
  | [] => ""
  | some t :: rest => t ++ "\n" ++ concatPagesSpec rest
  | none :: rest => concatPagesSpec rest

/-- The source's accumulator fold equals the spec's concatenation on top
of the accumulator. -/
theorem foldl_pages (pages : List (Option String)) (acc : String) :
    pages.foldl
        (fun acc p => match p with | some t => acc ++ t ++ "\n" | none => acc) acc =
      acc ++ concatPagesSpec pages := by
  induction pages generalizing acc with
  | nil => simp [concatPagesSpec]
  | cons hd tl ih =>
    cases hd with
    | none => simp only [List.foldl_cons, concatPagesSpec, ih]
    | some t =>
      simp only [List.foldl_cons, concatPagesSpec, ih]
      rw [String.append_assoc acc t "\n",
        String.append_assoc acc (t ++ "\n") (concatPagesSpec tl),
        String.append_assoc t "\n" (concatPagesSpec tl)]

/-- C7: extraction of a readable document concatenates the per-page
texts, each followed by a newline and with text-less pages contributing
nothing, truncated to 8000 characters; a raising extraction returns the
empty string; and the result never exceeds 8000 characters. -/
theorem C7_extraction (pdf : Option (List (Option String)))
    (pages : List (Option String)) :
    extract_text_from_pdf none = "" ∧
    extract_text_from_pdf (some pages) = pyTruncate (concatPagesSpec pages) 8000 ∧
    (extract_text_from_pdf pdf).length ≤ 8000 := by
  refine ⟨rfl, ?_, ?_⟩
  · show pyTruncate
        (pages.foldl
          (fun acc p => match p with | some t => acc ++ t ++ "\n" | none => acc) "")
        8000 = pyTruncate (concatPagesSpec pages) 8000
    rw [foldl_pages, String.empty_append]
  · cases pdf with
    | none => simp [extract_text_from_pdf]
    | some l =>
      show (pyTruncate _ 8000).length ≤ 8000
      simp [pyTruncate]

/-- Sample attempts for concrete history evaluations. -/
def attemptA : Attempt := ⟨"Auto", "OOP in Java", "3/5", "10:00"⟩

/-- Second sample attempt. -/
def attemptB : Attempt := ⟨"PDF", "doc", "1/1", "10:05"⟩

/-- Third sample attempt. -/
def attemptC : Attempt := ⟨"Auto", "SQL", "2/8", "10:10"⟩

/-- C8: append always succeeds, extends the log by exactly one entry at
the end without deduplication; listing the recent entries returns the
last `n` in most-recent-first order (entry `i` is the log's
`length - 1 - i`-th entry) without changing the log (it is a pure
function of it); and clearing resets the log to empty, after which the
recent listing is empty. -/
theorem C8_history_ops (l : List Attempt) (a : Attempt) (n i : Nat)
    (h : i < min n l.length) :
    histAppend l a = l ++ [a] ∧
    (histAppend l a).length = l.length + 1 ∧
    (histAppend l a).getLast? = some a ∧
    (listRecent l n).length = min n l.length ∧
    (listRecent l n)[i]? = l[l.length - 1 - i]? ∧
    histClear = [] ∧
    listRecent histClear n = [] := by
  refine ⟨rfl, by simp [histAppend], List.getLast?_concat l, ?_, ?_, rfl, ?_⟩
  · simp only [listRecent, List.length_reverse, List.length_drop]
    omega
  · have hq : i < (l.drop (l.length - n)).length := by
      simp only [List.length_drop]
      omega
    rw [listRecent, List.getElem?_reverse hq, List.getElem?_drop]
    congr 1
    simp only [List.length_drop]
    omega
  · simp [listRecent, histClear]

/-- C8, witness: the history operations evaluated on a two-entry log. -/
theorem C8_witness :
    0 < min 5 [attemptA, attemptB].length ∧
    (histAppend [attemptA, attemptB] attemptC = [attemptA, attemptB] ++ [attemptC] ∧
      (histAppend [attemptA, attemptB] attemptC).length =
        [attemptA, attemptB].length + 1 ∧
      (histAppend [attemptA, attemptB] attemptC).getLast? = some attemptC ∧
      (listRecent [attemptA, attemptB] 5).length = min 5 [attemptA, attemptB].length ∧
      (listRecent [attemptA, attemptB] 5)[0]? =
        [attemptA, attemptB][[attemptA, attemptB].length - 1 - 0]? ∧
      histClear = [] ∧
      listRecent histClear 5 = []) :=
  ⟨by decide, C8_history_ops [attemptA, attemptB] attemptC 5 0 (by decide)⟩

/-- C10: a True/False question always renders the fixed widget options
`["True", "False"]`, its rendering never depends on the question's own
fields (any two True/False questions render identically from the same
stored answer and user action), the pre-selection index is 0 — "True" —
whenever the stored answer is neither "True" nor "False", and after
rendering the stored answer is always the string "True" or "False",
never unset. -/
theorem C10_true_false_rendering (q q2 : Question) (prev : Json) (pick : Option Nat)
    (h : isTF q = true) (h2 : isTF q2 = true) :
    widgetOptions q = [.str "True", .str "False"] ∧
    renderQuestion pick q prev = renderQuestion pick q2 prev ∧
    (pyEq prev (.str "True") = false → pyEq prev (.str "False") = false →
      tfDefaultIdx prev = 0) ∧
    (renderQuestion pick q prev = .str "True" ∨
      renderQuestion pick q prev = .str "False") := by
  have htype : dictGet q "type" .null = .str "True/False" := pyEq_str_right h
  have htype2 : dictGet q2 "type" .null = .str "True/False" := pyEq_str_right h2
  have hmcq : isMCQ q = false := by
    unfold isMCQ
    rw [htype]
    decide
  have hmcq2 : isMCQ q2 = false := by
    unfold isMCQ
    rw [htype2]
    decide
  refine ⟨?_, ?_, ?_, ?_⟩
  · simp [widgetOptions, hmcq, h]
  · simp [renderQuestion, hmcq, h, hmcq2, h2]
  · intro hT hF
    simp [tfDefaultIdx, tfCurrent, hT, hF, pyEq]
  · rcases Nat.mod_two_eq_zero_or_one (pick.getD (tfDefaultIdx prev)) with hm | hm <;>
      simp [renderQuestion, hmcq, h, hm]

/-- C10, witness: two True/False questions (one carrying a bogus options
list) rendered from an unset stored answer with no user action. -/
theorem C10_witness :
    (isTF [("type", Json.str "True/False")] = true ∧
      isTF [("type", Json.str "True/False"),
        ("options", Json.arr [Json.str "x"])] = true) ∧
    (widgetOptions [("type", Json.str "True/False")] =
        [.str "True", .str "False"] ∧
      renderQuestion none [("type", Json.str "True/False")] .null =
        renderQuestion none [("type", Json.str "True/False"),
          ("options", Json.arr [Json.str "x"])] .null ∧
      (pyEq Json.null (.str "True") = false → pyEq Json.null (.str "False") = false →
        tfDefaultIdx Json.null = 0) ∧
      (renderQuestion none [("type", Json.str "True/False")] .null = .str "True" ∨
        renderQuestion none [("type", Json.str "True/False")] .null = .str "False")) :=
  ⟨⟨by decide, by decide⟩,
    C10_true_false_rendering [("type", Json.str "True/False")]
      [("type", Json.str "True/False"), ("options", Json.arr [Json.str "x"])]
      Json.null none (by decide) (by decide)⟩
